import Mathlib

/-!
# Chat server (backend/server.js): message store, room membership and handlers

A shallow embedding of the socket handlers of `backend/server.js`:
`joinRoom`, `sendMessage`, `editMessage`, `deleteMessage` and `disconnect`.

* The Message collection is a list of documents in insertion (natural) order.
* Every server instance of the cluster (`ecosystem.config.js` starts three) owns
  its `connectedUsers` object and its local sockets; the socket.io adapter
  answers `io.in(room).fetchSockets()` and delivers `io.to(room).emit` over all
  instances.
* A handler is a function from the world before to the world after and the list
  of events it emitted. An exception inside `try` is caught by the handler's
  `catch`, which only logs: the handler then ends with what was done before the
  throw.
* No handler takes an acknowledgement callback, so what a handler sends to
  clients is exactly the list of its emits.
* `Date.now()` and the ObjectId generated by `new Message` are arguments
  of `sendMessage`.
-/

namespace ChatServer

abbrev SocketId := String
abbrev Room := String
abbrev ObjectId := Nat

/-! ## Documents -/

/-- A document of the Message collection: the paths of `MessageSchema` and `_id`. -/
structure Message where
  _id : ObjectId
  room : String
  user : String
  message : String
  replyTo : Option ObjectId
  timestamp : Nat
deriving DecidableEq, Repr

/-- A field value as the store compares it in a sort. -/
inductive Value where
  | null
  | str (s : String)
  | oid (n : ObjectId)
  | date (t : Nat)
deriving DecidableEq, Repr

/-- Position of a value's type in the store's cross-type comparison order. -/
def Value.rank : Value → Nat
  | .null => 0
  | .str _ => 1
  | .oid _ => 2
  | .date _ => 3

/-- Comparison used by sort: by value inside one type, by type otherwise. -/
def Value.le : Value → Value → Bool
  | .str a, .str b => decide (a ≤ b)
  | .oid a, .oid b => decide (a ≤ b)
  | .date a, .date b => decide (a ≤ b)
  | a, b => decide (a.rank ≤ b.rank)

/-- The value of a document at a path; a path the document does not have reads as null.
`MessageSchema` declares room, user, message, replyTo and timestamp (no schema
option adds other paths). -/
def Message.get (d : Message) (field : String) : Value :=
  if field = "_id" then .oid d._id
  else if field = "room" then .str d.room
  else if field = "user" then .str d.user
  else if field = "message" then .str d.message
  else if field = "replyTo" then (match d.replyTo with
    | some r => .oid r
    | none => .null)
  else if field = "timestamp" then .date d.timestamp
  else .null

/-- The replyTo path of a document as a client receives it: null, a bare id
(not populated), or the referenced document (populated). -/
inductive Ref where
  | null
  | id (n : ObjectId)
  | doc (m : Message)
deriving DecidableEq, Repr

/-- A document as serialised in an event payload. -/
structure MessageView where
  _id : ObjectId
  room : String
  user : String
  message : String
  replyTo : Ref
  timestamp : Nat
deriving DecidableEq, Repr

/-- An id as a client sends it: a string that casts to an ObjectId, or one that does not. -/
inductive RawId where
  | oid (n : ObjectId)
  | malformed (s : String)
deriving DecidableEq, Repr

/-- The replyTo member of a sendMessage payload; the handler reads only `_id`
(absent, null and the empty string are all falsy: `none`). -/
structure ReplyPayload where
  _id : Option RawId
deriving DecidableEq, Repr

/-! ## Store operations (mongoose) -/

/-- Cast of a query id to ObjectId; a CastError is thrown for a malformed one. -/
def castObjectId : RawId → Except String ObjectId
  | .oid n => .ok n
  | .malformed s => .error s

/-- The document with the given id: `Message.findById`. -/
def findById (docs : List Message) (id : ObjectId) : Option Message :=
  docs.find? (fun d => d._id = id)

/-- The documents of a room in natural order: `Message.find({ room })`. -/
def find (docs : List Message) (room : String) : List Message :=
  docs.filter (fun d => d.room = room)

/-- Insertion of a document into a list sorted descending on a path, before the
first document whose value is not greater. -/
def orderedInsert (field : String) (d : Message) : List Message → List Message
  | [] => [d]
  | x :: xs =>
    if Value.le (x.get field) (d.get field) then d :: x :: xs
    else x :: orderedInsert field d xs

/-- Stable descending sort on a path: `.sort({ field: -1 })`. -/
def sortDesc (field : String) : List Message → List Message
  | [] => []
  | d :: ds => orderedInsert field d (sortDesc field ds)

/-- Serialisation of a document that was not populated. -/
def Message.view (d : Message) : MessageView :=
  { _id := d._id, room := d.room, user := d.user, message := d.message,
    replyTo := (match d.replyTo with
      | some r => .id r
      | none => .null),
    timestamp := d.timestamp }

/-- One-level population of replyTo: `.populate("replyTo")`. A reference whose
document is not in the collection becomes null. -/
def populate (docs : List Message) (d : Message) : MessageView :=
  { _id := d._id, room := d.room, user := d.user, message := d.message,
    replyTo := (match d.replyTo with
      | some r => (match findById docs r with
        | some t => .doc t
        | none => .null)
      | none => .null),
    timestamp := d.timestamp }

/-- The required validators of `MessageSchema` run by `save`: room, user and
message must be strings of non-zero length. -/
def validate (d : Message) : Bool :=
  d.room ≠ "" && d.user ≠ "" && d.message ≠ ""

/-- Saving a new document: `msg.save()`. Throws on a validation error and on a
duplicate `_id`; otherwise appends the document. -/
def save (docs : List Message) (d : Message) : Except String (List Message) :=
  if validate d then
    if (findById docs d._id).isSome then .error "duplicate key"
    else .ok (docs ++ [d])
  else .error "validation failed"

/-- In-place update of the first document with the given id, returning the
updated document (option new): `Message.findByIdAndUpdate`. -/
def findByIdAndUpdate (docs : List Message) (id : ObjectId) (message : String)
    (replyTo : Option ObjectId) : List Message × Option Message :=
  match docs with
  | [] => ([], none)
  | d :: ds =>
    if d._id = id then
      let u : Message := { d with message := message, replyTo := replyTo }
      (u :: ds, some u)
    else
      let r := findByIdAndUpdate ds id message replyTo
      (d :: r.1, r.2)

/-- Removal of the first document with the given id, returning it:
`Message.findByIdAndDelete`. -/
def findByIdAndDelete (docs : List Message) (id : ObjectId) : List Message × Option Message :=
  match docs with
  | [] => ([], none)
  | d :: ds =>
    if d._id = id then (ds, some d)
    else
      let r := findByIdAndDelete ds id
      (d :: r.1, r.2)

/-! ## Instances, sockets and rooms (socket.io) -/

/-- Assignment `obj[key] = value` on a JS object with string keys: an existing
key keeps its position, a new key is appended. -/
def objSet (obj : List (SocketId × Room)) (key : SocketId) (value : Room) : List (SocketId × Room) :=
  match obj with
  | [] => [(key, value)]
  | (k, v) :: rest => if k = key then (k, value) :: rest else (k, v) :: objSet rest key value

/-- Read `obj[key]`; undefined is `none`. -/
def objGet (obj : List (SocketId × Room)) (key : SocketId) : Option Room :=
  match obj with
  | [] => none
  | (k, v) :: rest => if k = key then some v else objGet rest key

/-- Removal `delete obj[key]`. -/
def objDelete (obj : List (SocketId × Room)) (key : SocketId) : List (SocketId × Room) :=
  obj.filter (fun kv => kv.1 ≠ key)

/-- Keys in insertion order: `Object.keys(obj)`. -/
def objKeys (obj : List (SocketId × Room)) : List SocketId :=
  obj.map Prod.fst

/-- One server process: its `connectedUsers` object and its local sockets, each
with the set of rooms it has joined. -/
structure Instance where
  connectedUsers : List (SocketId × Room)
  sockets : List (SocketId × List Room)
deriving DecidableEq, Repr

/-- The cluster and the shared Message collection. -/
structure World where
  instances : List Instance
  docs : List Message
deriving DecidableEq, Repr

/-- Whom an emit addresses: one socket (`socket.emit`), a room
(`io.to(room).emit`), or `io.to(undefined)`. -/
inductive Target where
  | socket (id : SocketId)
  | room (name : Room)
  | undefinedRoom
deriving DecidableEq, Repr

/-- The server-to-client events with their payloads. -/
inductive Event where
  | loadMessages (messages : List MessageView)
  | updateUsers (users : List SocketId)
  | receiveMessage (msg : Option MessageView)
  | messageDeleted (messageId : RawId)
deriving DecidableEq, Repr

/-- One emitted event. -/
structure Emit where
  target : Target
  event : Event
deriving DecidableEq, Repr

/-- Replacement of the instance at an index. -/
def modifyInstance (insts : List Instance) (i : Nat) (f : Instance → Instance) : List Instance :=
  match insts, i with
  | [], _ => []
  | x :: xs, 0 => f x :: xs
  | x :: xs, n + 1 => x :: modifyInstance xs n f

/-- The rooms of a socket after `socket.join(room)`: rooms form a set. -/
def socketJoin (sockets : List (SocketId × List Room)) (sid : SocketId) (room : Room) :
    List (SocketId × List Room) :=
  sockets.map (fun s => if s.1 = sid then (s.1, if room ∈ s.2 then s.2 else s.2 ++ [room]) else s)

/-- The ids of the sockets of all instances that are in a room:
`(await io.in(room).fetchSockets()).map(s => s.id)`, listed instance by instance. -/
def fetchSockets (w : World) (room : Room) : List SocketId :=
  w.instances.flatMap (fun inst => (inst.sockets.filter (fun s => room ∈ s.2)).map Prod.fst)

/-- The connections an emit reaches. -/
def recipients (w : World) : Target → List SocketId
  | .socket id => [id]
  | .room name => fetchSockets w name
  | .undefinedRoom => []

/-! ## Handlers -/

/-- A new connection on instance `i`: the socket starts in the room named by its id. -/
def connection (w : World) (i : Nat) (sid : SocketId) : World :=
  { w with instances := modifyInstance w.instances i (fun inst =>
    { connectedUsers := inst.connectedUsers,
      sockets := inst.sockets ++ [(sid, [sid])] }) }

/-- Handler of joinRoom on instance `i` for socket `sid`. -/
def joinRoom (w : World) (i : Nat) (sid : SocketId) (room : Room) : World × List Emit :=
  let w1 : World := { w with instances := modifyInstance w.instances i (fun inst =>
    { connectedUsers := objSet inst.connectedUsers sid room,
      sockets := socketJoin inst.sockets sid room }) }
  let messages := (((sortDesc "createdAt" (find w1.docs room)).take 50).map (populate w1.docs))
  let roomSockets := fetchSockets w1 room
  (w1, [⟨.socket sid, .loadMessages messages⟩, ⟨.room room, .updateUsers roomSockets⟩])

/-- The replyToId computed by sendMessage; throws when `replyTo._id` does not cast. -/
def resolveReplyTo (docs : List Message) (replyTo : Option ReplyPayload) :
    Except String (Option ObjectId) :=
  match replyTo with
  | some ⟨some raw⟩ =>
    match castObjectId raw with
    | .error e => .error e
    | .ok id =>
      match findById docs id with
      | some repliedMsg => .ok (some repliedMsg._id)
      | none => .ok none
  | _ => .ok none

/-- Handler of sendMessage for socket `sid`; `now` is `Date.now()` and `newId` the
ObjectId given to the new document. -/
def sendMessage (w : World) (sid : SocketId) (now : Nat) (newId : ObjectId)
    (room : Room) (message : String) (replyTo : Option ReplyPayload) : World × List Emit :=
  match resolveReplyTo w.docs replyTo with
  | .error _ => (w, [])
  | .ok replyToId =>
    let msg : Message :=
      { _id := newId, room := room, user := sid, message := message,
        replyTo := replyToId, timestamp := now }
    match save w.docs msg with
    | .error _ => (w, [])
    | .ok docs1 =>
      let populatedMsg : Option MessageView :=
        if replyTo.isSome then (findById docs1 msg._id).map (populate docs1)
        else some msg.view
      ({ w with docs := docs1 }, [⟨.room room, .receiveMessage populatedMsg⟩])

/-- Handler of editMessage. -/
def editMessage (w : World) (messageId : RawId) (newMessage : String) : World × List Emit :=
  match castObjectId messageId with
  | .error _ => (w, [])
  | .ok id =>
    match findById w.docs id with
    | none => (w, [])
    | some existingMessage =>
      let r := findByIdAndUpdate w.docs id newMessage existingMessage.replyTo
      match r.2 with
      | some updatedMsg =>
        ({ w with docs := r.1 }, [⟨.room updatedMsg.room, .receiveMessage (some updatedMsg.view)⟩])
      | none => ({ w with docs := r.1 }, [])

/-- Handler of deleteMessage. -/
def deleteMessage (w : World) (messageId : RawId) : World × List Emit :=
  match castObjectId messageId with
  | .error _ => (w, [])
  | .ok id =>
    let r := findByIdAndDelete w.docs id
    match r.2 with
    | some deletedMsg =>
      ({ w with docs := r.1 }, [⟨.room deletedMsg.room, .messageDeleted messageId⟩])
    | none => ({ w with docs := r.1 }, [])

/-- The body of the disconnect handler on one instance's `connectedUsers`:
the object after the delete, the room read before it, and `usersInRoom`. -/
def disconnectLocal (connectedUsers : List (SocketId × Room)) (sid : SocketId) :
    List (SocketId × Room) × Option Room × List SocketId :=
  let room := objGet connectedUsers sid
  let connectedUsers1 := objDelete connectedUsers sid
  let usersInRoom := (objKeys connectedUsers1).filter (fun id => objGet connectedUsers1 id = room)
  (connectedUsers1, room, usersInRoom)

/-- Handler of disconnect on instance `i` for socket `sid`. The socket has left
all its rooms when the event fires. -/
def disconnect (w : World) (i : Nat) (sid : SocketId) : World × List Emit :=
  let cu := ((w.instances.get? i).map (fun inst => inst.connectedUsers)).getD []
  let r := disconnectLocal cu sid
  let w1 : World := { w with instances := modifyInstance w.instances i (fun inst =>
    { connectedUsers := r.1,
      sockets := inst.sockets.filter (fun s => s.1 ≠ sid) }) }
  let target : Target := match r.2.1 with
    | some room => .room room
    | none => .undefinedRoom
  (w1, [⟨target, .updateUsers r.2.2⟩])

/-- One event arriving at the cluster. -/
inductive Action where
  | connection (i : Nat) (sid : SocketId)
  | joinRoom (i : Nat) (sid : SocketId) (room : Room)
  | sendMessage (sid : SocketId) (now : Nat) (newId : ObjectId) (room : Room)
      (message : String) (replyTo : Option ReplyPayload)
  | editMessage (messageId : RawId) (newMessage : String)
  | deleteMessage (messageId : RawId)
  | disconnect (i : Nat) (sid : SocketId)
deriving DecidableEq, Repr

/-- The handler an event runs. -/
def step (w : World) : Action → World × List Emit
  | .connection i sid => (connection w i sid, [])
  | .joinRoom i sid room => joinRoom w i sid room
  | .sendMessage sid now newId room message replyTo =>
    sendMessage w sid now newId room message replyTo
  | .editMessage messageId newMessage => editMessage w messageId newMessage
  | .deleteMessage messageId => deleteMessage w messageId
  | .disconnect i sid => disconnect w i sid

/-- The world after a sequence of events, handled one after the other. -/
def run (w : World) : List Action → World
  | [] => w
  | a :: rest => run (step w a).1 rest

/-- Every document's id occurs once in the collection (the store's unique index on `_id`). -/
abbrev UniqueIds (docs : List Message) : Prop :=
  (docs.map (fun d => d._id)).Nodup


/-! ## Client-side check (frontend/src/components/Chat.js) -/

/-- The code points that `String.prototype.trim` strips: white space and line terminators. -/
def isWhiteSpace (c : Char) : Bool :=
  c.toNat ∈ [0x09, 0x0A, 0x0B, 0x0C, 0x0D, 0x20, 0xA0, 0x1680, 0x2028, 0x2029, 0x202F,
    0x205F, 0x3000, 0xFEFF] || (0x2000 ≤ c.toNat && c.toNat ≤ 0x200A)

/-- The text without leading and trailing white space: `text.trim()`. -/
def trim (text : String) : String :=
  ⟨((text.data.dropWhile isWhiteSpace).reverse.dropWhile isWhiteSpace).reverse⟩

/-- The client's `sendMessage`: the body it would put in the payload, or `none`
when it returns before emitting (`if (!message) return`). -/
def clientBody (text : String) : Option String :=
  if trim text = "" then none else some (trim text)

/-! ## Cluster-wide membership -/

/-- The connections recorded as joined to a room in the `connectedUsers` object of
any instance: the member list the presence broadcast is specified to carry. -/
def roomMembers (w : World) (room : Room) : List SocketId :=
  w.instances.flatMap (fun inst =>
    (objKeys inst.connectedUsers).filter (fun id => objGet inst.connectedUsers id = some room))
/-! ## Scenarios -/

/-- A cluster of two instances with no connection and an empty collection. -/
def emptyWorld : World :=
  { instances := [⟨[], []⟩, ⟨[], []⟩], docs := [] }

/-- Two messages sent to room general by c1, at times 1 and 2; then c2 connects. -/
def historyWorld : World :=
  let w1 := (sendMessage (connection emptyWorld 0 "c1") "c1" 1 101 "general" "hi" none).1
  let w2 := (sendMessage w1 "c1" 2 102 "general" "again" none).1
  connection w2 1 "c2"

/-- Room a holds one message, sent by c1; c2 is connected. -/
def twoRoomWorld : World :=
  connection (sendMessage (connection emptyWorld 0 "c1") "c1" 1 201 "a" "first" none).1 0 "c2"

/-- Connection c on instance 0 joins room r1 and then room r2. -/
def switchWorld : World :=
  (joinRoom (joinRoom (connection emptyWorld 0 "c") 0 "c" "r1").1 0 "c" "r2").1

/-- Connection c on instance 0 and connection d on instance 1 have both joined room r. -/
def clusterWorld : World :=
  let w1 := (joinRoom (connection emptyWorld 0 "c") 0 "c" "r").1
  (joinRoom (connection w1 1 "d") 1 "d" "r").1

/-- In room general: c1 sends "hi" (101), c1 replies "re" to 101 (102), c1 sends
"solo" (103), then 101 is deleted and c3 connects. -/
def danglingWorld : World :=
  let w1 := (sendMessage (connection emptyWorld 0 "c1") "c1" 1 101 "general" "hi" none).1
  let w2 := (sendMessage w1 "c1" 2 102 "general" "re" (some ⟨some (.oid 101)⟩)).1
  let w3 := (sendMessage w2 "c1" 3 103 "general" "solo" none).1
  connection (deleteMessage w3 (.oid 101)).1 1 "c3"

/-! ## Lemmas on the store operations -/

theorem get_createdAt (d : Message) : d.get "createdAt" = .null := by
  simp [Message.get]

theorem orderedInsert_createdAt (d : Message) (l : List Message) :
    orderedInsert "createdAt" d l = d :: l := by
  cases l with
  | nil => rfl
  | cons x xs => simp [orderedInsert, get_createdAt, Value.le, Value.rank]

theorem sortDesc_createdAt (l : List Message) : sortDesc "createdAt" l = l := by
  induction l with
  | nil => rfl
  | cons d ds ih => simp [sortDesc, ih, orderedInsert_createdAt]

theorem joinRoom_emits (w : World) (i : Nat) (sid : SocketId) (room : Room) :
    (joinRoom w i sid room).2 =
      [⟨.socket sid, .loadMessages (((find w.docs room).take 50).map (populate w.docs))⟩,
       ⟨.room room, .updateUsers (fetchSockets (joinRoom w i sid room).1 room)⟩] := by
  simp [joinRoom, sortDesc_createdAt]

theorem findById_eq_none {docs : List Message} {id : ObjectId}
    (h : ∀ d ∈ docs, d._id ≠ id) : findById docs id = none := by
  unfold findById
  rw [List.find?_eq_none]
  intro d hd
  simpa using h d hd

theorem findById_some_id {docs : List Message} {id : ObjectId} {d : Message}
    (h : findById docs id = some d) : d._id = id ∧ d ∈ docs := by
  unfold findById at h
  have h1 := List.find?_some h
  have h2 := List.mem_of_find?_eq_some h
  exact ⟨by simpa using h1, h2⟩

theorem findById_of_mem {docs : List Message} {m : Message}
    (hm : m ∈ docs) (hu : UniqueIds docs) : findById docs m._id = some m := by
  induction docs with
  | nil => cases hm
  | cons d ds ih =>
    unfold UniqueIds at hu
    rw [List.map_cons, List.nodup_cons] at hu
    rcases List.mem_cons.mp hm with h | h
    · subst h
      simp [findById]
    · have hne : d._id ≠ m._id := by
        intro he
        exact hu.1 (he ▸ List.mem_map_of_mem (fun d => d._id) h)
      have := ih h hu.2
      simp only [findById] at this ⊢
      rw [List.find?_cons]
      simp [hne, this]

theorem findByIdAndUpdate_snd (docs : List Message) (id : ObjectId) (message : String)
    (replyTo : Option ObjectId) :
    (findByIdAndUpdate docs id message replyTo).2 =
      (findById docs id).map (fun d => { d with message := message, replyTo := replyTo }) := by
  induction docs with
  | nil => rfl
  | cons d ds ih =>
    by_cases h : d._id = id
    · simp [findByIdAndUpdate, findById, h]
    · simp only [findById] at ih
      simp [findByIdAndUpdate, findById, h, ih]

theorem findByIdAndUpdate_fst (docs : List Message) (id : ObjectId) (message : String)
    (replyTo : Option ObjectId) (hu : UniqueIds docs) :
    (findByIdAndUpdate docs id message replyTo).1 =
      docs.map (fun d => if d._id = id then { d with message := message, replyTo := replyTo } else d) := by
  induction docs with
  | nil => rfl
  | cons d ds ih =>
    unfold UniqueIds at hu
    rw [List.map_cons, List.nodup_cons] at hu
    by_cases h : d._id = id
    · have hrest : ∀ x ∈ ds, x._id ≠ id := by
        intro x hx he
        exact hu.1 (h ▸ he ▸ List.mem_map_of_mem (fun d => d._id) hx)
      have hmap : ds.map (fun d => if d._id = id then
          { d with message := message, replyTo := replyTo } else d) = ds := by
        conv_rhs => rw [← List.map_id ds]
        apply List.map_congr_left
        intro x hx
        simp [hrest x hx]
      simp [findByIdAndUpdate, h, hmap]
    · simp [findByIdAndUpdate, h, ih hu.2]

theorem findByIdAndDelete_snd (docs : List Message) (id : ObjectId) :
    (findByIdAndDelete docs id).2 = findById docs id := by
  induction docs with
  | nil => rfl
  | cons d ds ih =>
    by_cases h : d._id = id
    · simp [findByIdAndDelete, findById, h]
    · simp only [findById] at ih
      simp [findByIdAndDelete, findById, h, ih]

theorem findByIdAndDelete_fst (docs : List Message) (id : ObjectId) (hu : UniqueIds docs) :
    (findByIdAndDelete docs id).1 = docs.filter (fun d => d._id ≠ id) := by
  induction docs with
  | nil => rfl
  | cons d ds ih =>
    unfold UniqueIds at hu
    rw [List.map_cons, List.nodup_cons] at hu
    by_cases h : d._id = id
    · have hrest : ∀ x ∈ ds, x._id ≠ id := by
        intro x hx he
        exact hu.1 (h ▸ he ▸ List.mem_map_of_mem (fun d => d._id) hx)
      simp only [findByIdAndDelete, h, if_true]
      rw [List.filter_cons]
      simp only [ne_eq, h, not_true_eq_false, decide_False, Bool.false_eq_true, if_false]
      symm
      rw [List.filter_eq_self]
      intro x hx
      simpa using hrest x hx
    · simp [findByIdAndDelete, h, ih hu.2]

theorem findByIdAndDelete_none (docs : List Message) (id : ObjectId)
    (h : ∀ d ∈ docs, d._id ≠ id) : findByIdAndDelete docs id = (docs, none) := by
  induction docs with
  | nil => rfl
  | cons d ds ih =>
    have hd : d._id ≠ id := h d (List.mem_cons_self _ _)
    have := ih (fun x hx => h x (List.mem_cons_of_mem _ hx))
    simp [findByIdAndDelete, hd, this]


theorem findById_map (docs : List Message) (f : Message → Message) (id : ObjectId)
    (hf : ∀ d, (f d)._id = d._id) : findById (docs.map f) id = (findById docs id).map f := by
  induction docs with
  | nil => rfl
  | cons d ds ih =>
    simp only [findById] at ih
    by_cases h : d._id = id
    · simp [findById, hf, h]
    · simp [findById, hf, h, ih]

theorem findById_filter_ne (docs : List Message) (id other : ObjectId) (h : id ≠ other) :
    findById (docs.filter (fun d => d._id ≠ other)) id = findById docs id := by
  induction docs with
  | nil => rfl
  | cons d ds ih =>
    unfold findById at ih ⊢
    by_cases ho : d._id = other
    · have hne : d._id ≠ id := fun he => h (he ▸ ho)
      rw [List.filter_cons, List.find?_cons]
      simp only [ne_eq, ho, not_true_eq_false, decide_False, Bool.false_eq_true, if_false]
      rw [show decide (other = id) = false from decide_eq_false (fun e => h e.symm)]
      exact ih
    · rw [List.filter_cons]
      simp only [ne_eq, ho, not_false_eq_true, decide_True, if_true]
      rw [List.find?_cons, List.find?_cons]
      by_cases he : d._id = id
      · simp only [he, decide_True]
      · simp only [he, decide_False]
        exact ih


/-! ## Lemmas on sendMessage -/

theorem resolveReplyTo_some {docs : List Message} {replyTo : Option ReplyPayload} {r : ObjectId}
    (h : resolveReplyTo docs replyTo = .ok (some r)) :
    replyTo = some ⟨some (.oid r)⟩ ∧ ∃ d, findById docs r = some d := by
  unfold resolveReplyTo at h
  split at h
  · rename_i raw
    cases raw with
    | malformed s => simp [castObjectId] at h
    | oid n =>
      simp only [castObjectId] at h
      cases hf : findById docs n with
      | none => simp [hf] at h
      | some d =>
        simp only [hf, Except.ok.injEq, Option.some.injEq] at h
        have hid := (findById_some_id hf).1
        have hrn : r = n := by rw [← h, hid]
        subst hrn
        exact ⟨rfl, d, hf⟩
  · simp at h

theorem resolveReplyTo_found {docs : List Message} {n : ObjectId} {d : Message}
    (h : findById docs n = some d) :
    resolveReplyTo docs (some ⟨some (.oid n)⟩) = .ok (some n) := by
  simp [resolveReplyTo, castObjectId, h, (findById_some_id h).1]

theorem sendMessage_stored {w : World} {sid : SocketId} {now : Nat} {newId : ObjectId}
    {room : Room} {message : String} {replyTo : Option ReplyPayload} {m : Message}
    (h : (sendMessage w sid now newId room message replyTo).1.docs = w.docs ++ [m]) :
    ∃ replyToId, resolveReplyTo w.docs replyTo = .ok replyToId ∧
      m = ⟨newId, room, sid, message, replyToId, now⟩ ∧
      save w.docs m = .ok (w.docs ++ [m]) := by
  have hne : w.docs ≠ w.docs ++ [m] := by
    intro he
    have := congrArg List.length he
    simp at this
  unfold sendMessage at h
  cases hr : resolveReplyTo w.docs replyTo with
  | error e =>
    rw [hr] at h
    exact absurd h hne
  | ok replyToId =>
    rw [hr] at h
    simp only at h
    cases hs : save w.docs ⟨newId, room, sid, message, replyToId, now⟩ with
    | error e =>
      rw [hs] at h
      exact absurd h hne
    | ok docs1 =>
      rw [hs] at h
      simp only at h
      unfold save at hs
      split at hs
      · split at hs
        · cases hs
        · have hd : docs1 = w.docs ++ [⟨newId, room, sid, message, replyToId, now⟩] :=
            (Except.ok.inj hs).symm
          rw [hd] at h
          have := List.append_cancel_left h
          have hm : m = ⟨newId, room, sid, message, replyToId, now⟩ := (List.cons.inj this).1.symm
          refine ⟨replyToId, rfl, hm, ?_⟩
          rw [hm]
          unfold save
          simp only [*, if_true, if_false]
          rfl
      · cases hs

/-! ## Lemmas on the event sendMessage emits -/

theorem findById_append_of_some {docs : List Message} {id : ObjectId} {t : Message}
    (h : findById docs id = some t) (extra : List Message) :
    findById (docs ++ extra) id = some t := by
  unfold findById at h ⊢
  rw [List.find?_append, h]
  rfl

theorem findById_append_new {docs : List Message} {m : Message}
    (h : findById docs m._id = none) : findById (docs ++ [m]) m._id = some m := by
  unfold findById at h ⊢
  rw [List.find?_append, h]
  simp

theorem save_ok_new {docs docs1 : List Message} {d : Message}
    (hs : save docs d = .ok docs1) : findById docs d._id = none := by
  unfold save at hs
  split at hs
  · split at hs
    · cases hs
    · rename_i hnew
      cases hf : findById docs d._id with
      | none => rfl
      | some x => simp [hf] at hnew
  · cases hs

/-! ## The unique-id invariant and re-joining -/

theorem not_mem_ids_of_findById_none {docs : List Message} {id : ObjectId}
    (h : findById docs id = none) : id ∉ docs.map (fun d => d._id) := by
  intro hmem
  obtain ⟨d, hd, hid⟩ := List.mem_map.mp hmem
  have hall : ∀ x ∈ docs, ¬ x._id = id := by simpa [findById] using h
  exact hall d hd hid

theorem save_uniqueIds {docs docs1 : List Message} {d : Message}
    (hs : save docs d = .ok docs1) (hu : UniqueIds docs) : UniqueIds docs1 := by
  unfold save at hs
  split at hs
  · split at hs
    · cases hs
    · rename_i hnew
      have hd : docs1 = docs ++ [d] := (Except.ok.inj hs).symm
      have hnone : findById docs d._id = none := by
        cases hf : findById docs d._id with
        | none => rfl
        | some x => simp [hf] at hnew
      rw [hd]
      unfold UniqueIds
      rw [List.map_append, List.nodup_append]
      refine ⟨hu, by simp, ?_⟩
      intro a ha hb
      have : a = d._id := by simpa using hb
      exact not_mem_ids_of_findById_none hnone (this ▸ ha)
  · cases hs

theorem sendMessage_uniqueIds (w : World) (sid : SocketId) (now : Nat) (newId : ObjectId)
    (room : Room) (message : String) (replyTo : Option ReplyPayload) (hu : UniqueIds w.docs) :
    UniqueIds (sendMessage w sid now newId room message replyTo).1.docs := by
  unfold sendMessage
  cases resolveReplyTo w.docs replyTo with
  | error e => exact hu
  | ok replyToId =>
    simp only
    cases hs : save w.docs ⟨newId, room, sid, message, replyToId, now⟩ with
    | error e => exact hu
    | ok docs1 => exact save_uniqueIds hs hu

theorem editMessage_uniqueIds (w : World) (messageId : RawId) (newMessage : String)
    (hu : UniqueIds w.docs) : UniqueIds (editMessage w messageId newMessage).1.docs := by
  cases messageId with
  | malformed s => exact hu
  | oid n =>
    simp only [editMessage, castObjectId]
    cases hf : findById w.docs n with
    | none => exact hu
    | some existingMessage =>
      have h1 := findByIdAndUpdate_fst w.docs n newMessage existingMessage.replyTo hu
      have hids : (findByIdAndUpdate w.docs n newMessage existingMessage.replyTo).1.map
          (fun d => d._id) = w.docs.map (fun d => d._id) := by
        rw [h1, List.map_map]
        apply List.map_congr_left
        intro d _
        by_cases h : d._id = n <;> simp [h]
      have hu1 : UniqueIds (findByIdAndUpdate w.docs n newMessage existingMessage.replyTo).1 := by
        unfold UniqueIds
        rw [hids]
        exact hu
      simp only
      split <;> exact hu1

theorem deleteMessage_uniqueIds (w : World) (messageId : RawId)
    (hu : UniqueIds w.docs) : UniqueIds (deleteMessage w messageId).1.docs := by
  cases messageId with
  | malformed s => exact hu
  | oid n =>
    simp only [deleteMessage, castObjectId]
    have h1 := findByIdAndDelete_fst w.docs n hu
    have hu1 : UniqueIds (findByIdAndDelete w.docs n).1 := by
      unfold UniqueIds
      rw [h1]
      exact (List.filter_sublist _).map _ |>.nodup hu
    split <;> exact hu1

theorem joinRoom_docs (w : World) (i : Nat) (sid : SocketId) (room : Room) :
    (joinRoom w i sid room).1.docs = w.docs := rfl

theorem disconnect_docs (w : World) (i : Nat) (sid : SocketId) :
    (disconnect w i sid).1.docs = w.docs := rfl

theorem step_uniqueIds (w : World) (a : Action) (hu : UniqueIds w.docs) :
    UniqueIds (step w a).1.docs := by
  cases a with
  | connection i sid => exact hu
  | joinRoom i sid room => exact hu
  | sendMessage sid now newId room message replyTo =>
    exact sendMessage_uniqueIds w sid now newId room message replyTo hu
  | editMessage messageId newMessage => exact editMessage_uniqueIds w messageId newMessage hu
  | deleteMessage messageId => exact deleteMessage_uniqueIds w messageId hu
  | disconnect i sid => exact hu

/-- Ids stay unique along every sequence of events. -/
theorem run_uniqueIds (w : World) (actions : List Action) (hu : UniqueIds w.docs) :
    UniqueIds (run w actions).docs := by
  induction actions generalizing w with
  | nil => exact hu
  | cons a rest ih => exact ih (step w a).1 (step_uniqueIds w a hu)

theorem objSet_objSet (obj : List (SocketId × Room)) (key : SocketId) (value : Room) :
    objSet (objSet obj key value) key value = objSet obj key value := by
  induction obj with
  | nil => simp [objSet]
  | cons kv rest ih =>
    obtain ⟨k, v⟩ := kv
    by_cases h : k = key
    · simp [objSet, h]
    · simp [objSet, h, ih]

theorem objGet_objSet (obj : List (SocketId × Room)) (key : SocketId) (value : Room) :
    objGet (objSet obj key value) key = some value := by
  induction obj with
  | nil => simp [objSet, objGet]
  | cons kv rest ih =>
    obtain ⟨k, v⟩ := kv
    by_cases h : k = key
    · simp [objSet, objGet, h]
    · simp [objSet, objGet, h, ih]

theorem socketJoin_socketJoin (sockets : List (SocketId × List Room)) (sid : SocketId)
    (room : Room) :
    socketJoin (socketJoin sockets sid room) sid room = socketJoin sockets sid room := by
  unfold socketJoin
  rw [List.map_map]
  apply List.map_congr_left
  intro s _
  by_cases h : s.1 = sid
  · by_cases hr : room ∈ s.2
    · simp [h, hr]
    · simp [h, hr]
  · simp [h]

theorem modifyInstance_modifyInstance (insts : List Instance) (i : Nat)
    (f g : Instance → Instance) :
    modifyInstance (modifyInstance insts i f) i g = modifyInstance insts i (fun x => g (f x)) := by
  induction insts generalizing i with
  | nil => rfl
  | cons x xs ih =>
    cases i with
    | zero => rfl
    | succ n => simp [modifyInstance, ih]

theorem modifyInstance_congr (insts : List Instance) (i : Nat) (f g : Instance → Instance)
    (h : ∀ x, f x = g x) : modifyInstance insts i f = modifyInstance insts i g := by
  have : f = g := funext h
  rw [this]

/-- Joining the same room twice in succession leaves the world of the first join:
one `connectedUsers` entry for the connection, and the room once in its room set. -/
theorem joinRoom_twice (w : World) (i : Nat) (sid : SocketId) (room : Room) :
    (joinRoom (joinRoom w i sid room).1 i sid room).1 = (joinRoom w i sid room).1 := by
  simp only [joinRoom]
  rw [modifyInstance_modifyInstance]
  congr 1
  apply modifyInstance_congr
  intro x
  simp [objSet_objSet, socketJoin_socketJoin]

/-! ## Claims -/

/-- C1 (evaluation of the code where it departs from the claim): after c1 has sent
"hi" at time 1 and "again" at time 2 to room general, the loadMessages payload that
joinRoom emits to c2 lists the message of time 1 before the message of time 2:
ascending creation time, where the claim says descending. The sort names the path
createdAt, which no document has, so it leaves the natural order. -/
theorem joinRoom_history_ascending :
    (joinRoom historyWorld 1 "c2" "general").2.head? =
      some ⟨.socket "c2", .loadMessages
        [⟨101, "general", "c1", "hi", .null, 1⟩, ⟨102, "general", "c1", "again", .null, 2⟩]⟩ := by
  decide

/-- C2: editMessage on the id of a stored message m leaves a message with the
id, room, author, replyTo and timestamp of m and the new body; every other stored
message, and the order of the collection, is unchanged. -/
theorem editMessage_changes_body_only (w : World) (m : Message) (newMessage : String)
    (hm : m ∈ w.docs) (hu : UniqueIds w.docs) :
    findById (editMessage w (.oid m._id) newMessage).1.docs m._id
        = some { m with message := newMessage } ∧
    (∀ id, id ≠ m._id →
      findById (editMessage w (.oid m._id) newMessage).1.docs id = findById w.docs id) ∧
    (editMessage w (.oid m._id) newMessage).1.docs
        = w.docs.map (fun d => if d._id = m._id then { m with message := newMessage } else d) := by
  have hf := findById_of_mem hm hu
  have hdocs : (editMessage w (.oid m._id) newMessage).1.docs
      = w.docs.map (fun d => if d._id = m._id then { m with message := newMessage } else d) := by
    have h1 := findByIdAndUpdate_fst w.docs m._id newMessage m.replyTo hu
    have h2 := findByIdAndUpdate_snd w.docs m._id newMessage m.replyTo
    rw [hf] at h2
    simp only [editMessage, castObjectId, hf, h2, Option.map_some']
    rw [h1]
    apply List.map_congr_left
    intro d hd
    by_cases he : d._id = m._id
    · have hdm : d = m := by
        have := findById_of_mem hd hu
        rw [he, hf] at this
        exact (Option.some.inj this).symm
      simp [he, hdm]
    · simp [he]
  refine ⟨?_, ?_, hdocs⟩
  · rw [hdocs, findById_map _ _ _ (by intro d; by_cases h : d._id = m._id <;> simp [h]), hf]
    simp
  · intro id hid
    rw [hdocs, findById_map _ _ _ (by intro d; by_cases h : d._id = m._id <;> simp [h])]
    cases hd : findById w.docs id with
    | none => rfl
    | some d =>
      have := (findById_some_id hd).1
      simp [this, hid]

/-- Witness of C2: the message of id 101 of the history scenario, edited to "edited". -/
theorem editMessage_changes_body_only_witness :
    (⟨101, "general", "c1", "hi", none, 1⟩ : Message) ∈ historyWorld.docs ∧
    UniqueIds historyWorld.docs ∧
    findById (editMessage historyWorld (.oid 101) "edited").1.docs 101
      = some ⟨101, "general", "c1", "edited", none, 1⟩ :=
  ⟨by decide, by decide,
    (editMessage_changes_body_only historyWorld ⟨101, "general", "c1", "hi", none, 1⟩ "edited"
      (by decide) (by decide)).1⟩

/-- C3: deleteMessage on the id of a stored message m leaves no message with that
id, leaves every other stored message in place, and emits exactly one event:
messageDeleted carrying the id, to the room of m. -/
theorem deleteMessage_removes_and_notifies (w : World) (m : Message)
    (hm : m ∈ w.docs) (hu : UniqueIds w.docs) :
    findById (deleteMessage w (.oid m._id)).1.docs m._id = none ∧
    (∀ id, id ≠ m._id →
      findById (deleteMessage w (.oid m._id)).1.docs id = findById w.docs id) ∧
    (deleteMessage w (.oid m._id)).1.docs = w.docs.filter (fun d => d._id ≠ m._id) ∧
    (deleteMessage w (.oid m._id)).2 = [⟨.room m.room, .messageDeleted (.oid m._id)⟩] := by
  have hf := findById_of_mem hm hu
  have h1 := findByIdAndDelete_fst w.docs m._id hu
  have h2 := findByIdAndDelete_snd w.docs m._id
  rw [hf] at h2
  have hdocs : (deleteMessage w (.oid m._id)).1.docs = w.docs.filter (fun d => d._id ≠ m._id) := by
    simp only [deleteMessage, castObjectId, h2]
    exact h1
  refine ⟨?_, ?_, hdocs, ?_⟩
  · rw [hdocs]
    apply findById_eq_none
    intro d hd
    simpa using (List.mem_filter.mp hd).2
  · intro id hid
    rw [hdocs]
    exact findById_filter_ne w.docs id m._id hid
  · simp only [deleteMessage, castObjectId, h2]

/-- Witness of C3: deletion of the message of id 101 of the history scenario. -/
theorem deleteMessage_removes_and_notifies_witness :
    (⟨101, "general", "c1", "hi", none, 1⟩ : Message) ∈ historyWorld.docs ∧
    UniqueIds historyWorld.docs ∧
    (deleteMessage historyWorld (.oid 101)).2
      = [⟨.room "general", .messageDeleted (.oid 101)⟩] :=
  ⟨by decide, by decide,
    (deleteMessage_removes_and_notifies historyWorld ⟨101, "general", "c1", "hi", none, 1⟩
      (by decide) (by decide)).2.2.2⟩

/-- C4: for a messageId that matches no stored message (an id that is not in the
collection, or a string that is no ObjectId), editMessage and deleteMessage each
leave the world as it was and emit nothing. -/
theorem edit_delete_unknown_id_noop (w : World) (messageId : RawId) (newMessage : String)
    (h : ∀ d ∈ w.docs, messageId ≠ .oid d._id) :
    editMessage w messageId newMessage = (w, []) ∧ deleteMessage w messageId = (w, []) := by
  cases messageId with
  | malformed s => exact ⟨rfl, rfl⟩
  | oid n =>
    have hn : ∀ d ∈ w.docs, d._id ≠ n := by
      intro d hd he
      exact h d hd (by rw [he])
    constructor
    · simp only [editMessage, castObjectId, findById_eq_none hn]
    · simp only [deleteMessage, castObjectId, findByIdAndDelete_none w.docs n hn]

/-- Witness of C4: the id 999 is not in the history scenario. -/
theorem edit_delete_unknown_id_noop_witness :
    (∀ d ∈ historyWorld.docs, RawId.oid 999 ≠ .oid d._id) ∧
    editMessage historyWorld (.oid 999) "x" = (historyWorld, []) ∧
    deleteMessage historyWorld (.oid 999) = (historyWorld, []) :=
  ⟨by decide, edit_delete_unknown_id_noop historyWorld (.oid 999) "x" (by decide)⟩

/-- C5 (counterexample): the body of three spaces is empty after trimming, yet the
handler stores it and emits receiveMessage to the room; nothing is emitted to the
sender alone. -/
theorem sendMessage_blank_body_stored :
    trim "   " = "" ∧
    sendMessage (connection emptyWorld 0 "c1") "c1" 1 101 "general" "   " none =
      ({ instances := [⟨[], [("c1", ["c1"])]⟩, ⟨[], []⟩],
         docs := [⟨101, "general", "c1", "   ", none, 1⟩] },
       [⟨.room "general", .receiveMessage (some ⟨101, "general", "c1", "   ", .null, 1⟩)⟩]) := by
  decide

/-- C5 (amended): a sendMessage payload whose message is the empty string is
rejected by the required validator: the world is unchanged and no event at all is
emitted, neither receiveMessage to a room nor anything to the sender. -/
theorem sendMessage_empty_body_rejected (w : World) (sid : SocketId) (now : Nat)
    (newId : ObjectId) (room : Room) (replyTo : Option ReplyPayload) :
    sendMessage w sid now newId room "" replyTo = (w, []) := by
  unfold sendMessage
  cases resolveReplyTo w.docs replyTo with
  | error e => rfl
  | ok replyToId => simp [save, validate]

/-- C6: for a sendMessage call that stores a message m, m.replyTo is the id in the
payload when that id matches a stored message, and null in every other case; a
replyTo that is set references a message stored at that moment. -/
theorem sendMessage_replyTo_resolved (w : World) (sid : SocketId) (now : Nat) (newId : ObjectId)
    (room : Room) (message : String) (replyTo : Option ReplyPayload) (m : Message)
    (hstored : (sendMessage w sid now newId room message replyTo).1.docs = w.docs ++ [m]) :
    (∀ n, replyTo = some ⟨some (.oid n)⟩ → (∃ d ∈ w.docs, d._id = n) → m.replyTo = some n) ∧
    ((∀ n, replyTo = some ⟨some (.oid n)⟩ → ∀ d ∈ w.docs, d._id ≠ n) → m.replyTo = none) ∧
    (∀ r, m.replyTo = some r → ∃ d ∈ w.docs, d._id = r) := by
  obtain ⟨replyToId, hres, hm, _⟩ := sendMessage_stored hstored
  have hrt : m.replyTo = replyToId := by rw [hm]
  have hset : ∀ r, m.replyTo = some r →
      replyTo = some ⟨some (.oid r)⟩ ∧ ∃ d, findById w.docs r = some d := by
    intro r hr
    rw [hrt] at hr
    rw [hr] at hres
    exact resolveReplyTo_some hres
  refine ⟨?_, ?_, ?_⟩
  · intro n hn hex
    obtain ⟨d, hd, hdn⟩ := hex
    cases hf : findById w.docs n with
    | none =>
      have hall : ∀ x ∈ w.docs, ¬ x._id = n := by simpa [findById] using hf
      exact absurd hdn (hall d hd)
    | some d' =>
      have := resolveReplyTo_found hf
      rw [← hn, hres] at this
      rw [hrt]
      exact Except.ok.inj this
  · intro hno
    cases hmr : m.replyTo with
    | none => rfl
    | some r =>
      obtain ⟨hp, d, hd⟩ := hset r hmr
      exact absurd (findById_some_id hd).1 (hno r hp d (findById_some_id hd).2)
  · intro r hr
    obtain ⟨_, d, hd⟩ := hset r hr
    exact ⟨d, (findById_some_id hd).2, (findById_some_id hd).1⟩

/-- Witness of C6: in the history scenario c2 replies to the stored message 101. -/
theorem sendMessage_replyTo_resolved_witness :
    (sendMessage historyWorld "c2" 3 103 "general" "re" (some ⟨some (.oid 101)⟩)).1.docs
      = historyWorld.docs ++ [⟨103, "general", "c2", "re", some 101, 3⟩] ∧
    ∃ d ∈ historyWorld.docs, d._id = 101 :=
  ⟨by decide,
    (sendMessage_replyTo_resolved historyWorld "c2" 3 103 "general" "re"
      (some ⟨some (.oid 101)⟩) ⟨103, "general", "c2", "re", some 101, 3⟩ (by decide)).2.2
      101 rfl⟩
/-- C7 (counterexample): c2 sends to room b a reply to message 201, which is stored
in room a. The message is stored with replyTo 201 and room b, and the referent's
room is a. -/
theorem sendMessage_reply_across_rooms :
    (sendMessage twoRoomWorld "c2" 2 202 "b" "re" (some ⟨some (.oid 201)⟩)).1.docs =
      twoRoomWorld.docs ++ [⟨202, "b", "c2", "re", some 201, 2⟩] ∧
    (findById twoRoomWorld.docs 201).map (fun d => d.room) = some "a" := by
  decide

/-- C7 (amended): for a message m stored by sendMessage with replyTo set, the
referent is the stored message whose id the payload's replyTo carries, found by id
alone: with any other non-empty room in the payload the same replyTo is stored. -/
theorem sendMessage_replyTo_ignores_room (w : World) (sid : SocketId) (now : Nat)
    (newId : ObjectId) (room : Room) (message : String) (replyTo : Option ReplyPayload)
    (m : Message) (r : ObjectId)
    (hstored : (sendMessage w sid now newId room message replyTo).1.docs = w.docs ++ [m])
    (hr : m.replyTo = some r) :
    replyTo = some ⟨some (.oid r)⟩ ∧
    (∃ d, findById w.docs r = some d ∧ d._id = r) ∧
    (∀ room', room' ≠ "" →
      (sendMessage w sid now newId room' message replyTo).1.docs
        = w.docs ++ [{ m with room := room' }]) := by
  obtain ⟨replyToId, hres, hm, hsave⟩ := sendMessage_stored hstored
  have hrt : replyToId = some r := by rw [← hr, hm]
  subst hrt
  obtain ⟨hp, d, hd⟩ := resolveReplyTo_some hres
  refine ⟨hp, ⟨d, hd, (findById_some_id hd).1⟩, ?_⟩
  intro room' hroom
  rw [hm] at hsave
  unfold save at hsave
  split at hsave
  · rename_i hv
    split at hsave
    · cases hsave
    · rename_i hnew
      have hv' : validate ⟨newId, room', sid, message, some r, now⟩ = true := by
        simp only [validate, Bool.and_eq_true, decide_eq_true_eq] at hv ⊢
        exact ⟨⟨hroom, hv.1.2⟩, hv.2⟩
      simp only [sendMessage, hres, save, hv', hnew, if_true, if_false, hm]
      simp
  · cases hsave

/-- Witness of C7 (amended): the reply across rooms of the two-room scenario. -/
theorem sendMessage_replyTo_ignores_room_witness :
    (sendMessage twoRoomWorld "c2" 2 202 "b" "re" (some ⟨some (.oid 201)⟩)).1.docs
      = twoRoomWorld.docs ++ [⟨202, "b", "c2", "re", some 201, 2⟩] ∧
    (sendMessage twoRoomWorld "c2" 2 202 "a" "re" (some ⟨some (.oid 201)⟩)).1.docs
      = twoRoomWorld.docs ++ [⟨202, "a", "c2", "re", some 201, 2⟩] :=
  ⟨by decide,
    (sendMessage_replyTo_ignores_room twoRoomWorld "c2" 2 202 "b" "re"
      (some ⟨some (.oid 201)⟩) ⟨202, "b", "c2", "re", some 201, 2⟩ 201 (by decide) rfl).2.2
      "a" (by decide)⟩

/-- C8 (evaluation of the code where it departs from the claim): after joinRoom r1
then joinRoom r2 on connection c, `connectedUsers` records c in r2 only, but c is
still among the connections an emit to r1 reaches, and the member list that a later
joinRoom (by d, on the other instance) computes for r1 still names c. -/
theorem joinRoom_keeps_previous_room :
    switchWorld.instances.map (fun inst => inst.connectedUsers) = [[("c", "r2")], []] ∧
    "c" ∈ recipients switchWorld (.room "r1") ∧
    ∃ users, (joinRoom (connection switchWorld 1 "d") 1 "d" "r1").2 =
        [⟨.socket "d", .loadMessages []⟩, ⟨.room "r1", .updateUsers users⟩] ∧
      "c" ∈ users :=
  ⟨by decide, by decide, ["c", "d"], by decide, by decide⟩

/-- C9 (evaluation of the code where it departs from the claim): c on instance 0 and
d on instance 1 are both joined to room r. The disconnect handler for c emits
updateUsers with the empty list to r, while d, on the other instance, is still
joined to r. -/
theorem disconnect_lists_own_instance_only :
    (disconnect clusterWorld 0 "c").2 = [⟨.room "r", .updateUsers []⟩] ∧
    roomMembers (disconnect clusterWorld 0 "c").1 "r" = ["d"] ∧
    fetchSockets (disconnect clusterWorld 0 "c").1 "r" = ["d"] := by
  decide

/-- C10 (counterexample): message 102 replies to 101, which was deleted; message 103
never had a replyTo. The loadMessages payload of the next joinRoom carries both with
replyTo null: the dangling reference has no marker of its own. -/
theorem joinRoom_dangling_reply_unmarked :
    (joinRoom danglingWorld 1 "c3" "general").2.head? =
      some ⟨.socket "c3", .loadMessages
        [⟨102, "general", "c1", "re", .null, 2⟩, ⟨103, "general", "c1", "solo", .null, 3⟩]⟩ := by
  decide

/-- C10 (amended): for a stored message m2 whose replyTo names a message that is no
longer stored, in a room of at most 50 messages, joinRoom for that room emits
loadMessages to the joining connection and the payload contains m2 with replyTo
null, the value populate also gives a message that never had a replyTo. -/
theorem joinRoom_dangling_reply_null (w : World) (i : Nat) (sid : SocketId) (m2 : Message)
    (r : ObjectId) (hm : m2 ∈ w.docs) (hr : m2.replyTo = some r)
    (hdel : findById w.docs r = none) (hlen : (find w.docs m2.room).length ≤ 50) :
    (∃ messages, (joinRoom w i sid m2.room).2.head? = some ⟨.socket sid, .loadMessages messages⟩ ∧
      (⟨m2._id, m2.room, m2.user, m2.message, .null, m2.timestamp⟩ : MessageView) ∈ messages) ∧
    (∀ d : Message, d.replyTo = none → (populate w.docs d).replyTo = .null) := by
  constructor
  · refine ⟨_, by rw [joinRoom_emits]; rfl, ?_⟩
    rw [List.take_of_length_le hlen]
    apply List.mem_map.mpr
    refine ⟨m2, ?_, ?_⟩
    · exact List.mem_filter.mpr ⟨hm, by simp⟩
    · simp [populate, hr, hdel]
  · intro d hd
    simp [populate, hd]

/-- Witness of C10 (amended): message 102 of the dangling-reply scenario. -/
theorem joinRoom_dangling_reply_null_witness :
    (⟨102, "general", "c1", "re", some 101, 2⟩ : Message) ∈ danglingWorld.docs ∧
    findById danglingWorld.docs 101 = none ∧
    (find danglingWorld.docs "general").length ≤ 50 ∧
    ∃ messages, (joinRoom danglingWorld 1 "c3" "general").2.head?
        = some ⟨.socket "c3", .loadMessages messages⟩ ∧
      (⟨102, "general", "c1", "re", .null, 2⟩ : MessageView) ∈ messages :=
  ⟨by decide, by decide, by decide,
    (joinRoom_dangling_reply_null danglingWorld 1 "c3" ⟨102, "general", "c1", "re", some 101, 2⟩
      101 (by decide) rfl (by decide) (by decide)).1⟩

/-- C11: a sendMessage call that stores a message m emits exactly one event,
receiveMessage to the room of the payload, carrying m: the new id, the payload's
room and body, the sending connection as author. Its replyTo is the stored
document that m.replyTo references when m.replyTo is set, and null when it is not. -/
theorem sendMessage_emits_stored_message (w : World) (sid : SocketId) (now : Nat)
    (newId : ObjectId) (room : Room) (message : String) (replyTo : Option ReplyPayload)
    (m : Message)
    (hstored : (sendMessage w sid now newId room message replyTo).1.docs = w.docs ++ [m]) :
    ∃ ref : Ref,
      (sendMessage w sid now newId room message replyTo).2 =
        [⟨.room room, .receiveMessage
          (some ⟨m._id, m.room, m.user, m.message, ref, m.timestamp⟩)⟩] ∧
      m._id = newId ∧ m.room = room ∧ m.user = sid ∧ m.message = message ∧
      (∀ r, m.replyTo = some r →
        ∃ t, t ∈ w.docs ∧ t._id = r ∧ findById w.docs r = some t ∧ ref = .doc t) ∧
      (m.replyTo = none → ref = .null) := by
  obtain ⟨replyToId, hres, hm, hsave⟩ := sendMessage_stored hstored
  have hnew : findById w.docs m._id = none := save_ok_new hsave
  have hself : findById (w.docs ++ [m]) m._id = some m := findById_append_new hnew
  have hsave' : save w.docs ⟨newId, room, sid, message, replyToId, now⟩
      = .ok (w.docs ++ [m]) := by rw [← hm]; exact hsave
  have hid : m._id = newId := by rw [hm]
  have hemit : (sendMessage w sid now newId room message replyTo).2 =
      [⟨.room room, .receiveMessage
        (if replyTo.isSome then some (populate (w.docs ++ [m]) m) else some m.view)⟩] := by
    simp only [sendMessage, hres, hsave']
    rw [← hid, hself]
    have hm2 : (⟨m._id, room, sid, message, replyToId, now⟩ : Message) = m := by
      rw [hid]
      exact hm.symm
    rw [hm2]
    rfl
  cases hrt : m.replyTo with
  | none =>
    refine ⟨.null, ?_, hid, by rw [hm], by rw [hm], by rw [hm], ?_, fun _ => rfl⟩
    · rw [hemit]
      cases replyTo with
      | none => simp [Message.view, hrt]
      | some p => simp [populate, hrt]
    · intro r hr
      cases hr
  | some r =>
    have hr' : replyToId = some r := by rw [← hrt, hm]
    rw [hr'] at hres
    obtain ⟨hp, t, ht⟩ := resolveReplyTo_some hres
    refine ⟨.doc t, ?_, hid, by rw [hm], by rw [hm], by rw [hm], ?_, ?_⟩
    · rw [hemit, hp]
      simp [populate, hrt, findById_append_of_some ht]
    · intro r2 hr2
      have : r2 = r := (Option.some.inj hr2).symm
      subst this
      exact ⟨t, (findById_some_id ht).2, (findById_some_id ht).1, ht, rfl⟩
    · intro h
      cases h

/-- Witness of C11: in the history scenario c2 replies "re" to the stored message 101. -/
theorem sendMessage_emits_stored_message_witness :
    (sendMessage historyWorld "c2" 3 103 "general" "re" (some ⟨some (.oid 101)⟩)).1.docs
      = historyWorld.docs ++ [⟨103, "general", "c2", "re", some 101, 3⟩] ∧
    (sendMessage historyWorld "c2" 3 103 "general" "re" (some ⟨some (.oid 101)⟩)).2
      = [⟨.room "general", .receiveMessage (some ⟨103, "general", "c2", "re",
          .doc ⟨101, "general", "c1", "hi", none, 1⟩, 3⟩)⟩] := by
  refine ⟨by decide, ?_⟩
  obtain ⟨ref, hemit, _, _, _, _, hset, _⟩ :=
    sendMessage_emits_stored_message historyWorld "c2" 3 103 "general" "re"
      (some ⟨some (.oid 101)⟩) ⟨103, "general", "c2", "re", some 101, 3⟩ (by decide)
  obtain ⟨t, _, _, ht, hreft⟩ := hset 101 rfl
  have ht' : t = ⟨101, "general", "c1", "hi", none, 1⟩ := by
    have h101 : findById historyWorld.docs 101 = some ⟨101, "general", "c1", "hi", none, 1⟩ := by
      decide
    rw [h101] at ht
    exact (Option.some.inj ht).symm
  rw [hemit, hreft, ht']


end ChatServer
